import Mathlib

/-!
Verification of the Denver recreation-center calendar core
(`src/script.js` and the geolocation/distance service).

The development shallowly embeds the JavaScript functions as Lean
definitions:

* `normalizeTimeString` / `timeToMinutes` — the time normalizer;
* `calcColumns` (three passes) and its string-level wrapper
  `calculateEventColumns` — the event layout engine;
* `getDistances`, `checkLocationAndLoadDistances`,
  `calculateAllDistances`, `hasMovedSignificantly`, `clearCache` — the
  distance resolver and its cache policy (coordinates are rationals and
  the great-circle distance is an explicit function parameter `hav`,
  since floating-point trigonometry has no exact shallow embedding;
  every claim below holds for an arbitrary `hav`);
* `applyFilters` / `groupDataByGym` / `getSortedGymsByDistance` /
  `getDistanceInfo` — the schedule filter pipeline (JavaScript's
  stable `Array.prototype.sort` is modelled by a stable insertion
  sort, which agrees with every stable sort for a total comparator).
-/

namespace DenverRec

/-! ## Time normalizer (script.js: `normalizeTimeString`, `timeToMinutes`) -/

/-- Numeric value of a decimal digit character. -/
def digitVal (c : Char) : Nat := c.toNat - 48

/-- Recognise the bare-hour pattern `^\d{1,2}(am|pm)$` and return the digit
part and the meridiem part. -/
def bareHourSplit : List Char → Option (List Char × List Char)
  | [d1, a, b] =>
    if d1.isDigit ∧ ((a = 'a' ∨ a = 'p') ∧ b = 'm') then some ([d1], [a, b]) else none
  | [d1, d2, a, b] =>
    if (d1.isDigit ∧ d2.isDigit) ∧ ((a = 'a' ∨ a = 'p') ∧ b = 'm') then
      some ([d1, d2], [a, b])
    else none
  | _ => none

/-- `normalizeTimeString`: strip whitespace, lowercase, strip periods, and
rewrite a bare hour such as `6pm` to `6:00pm`. -/
def normalizeTimeString (s : String) : String :=
  if s = "" then s
  else
    let cs := ((s.toList.filter (fun c => !c.isWhitespace)).map Char.toLower).filter
      (fun c => c ≠ '.')
    match bareHourSplit cs with
    | some (ds, mer) => String.mk (ds ++ ':' :: '0' :: '0' :: mer)
    | none => String.mk cs

/-- Try to match `:MM(am|pm)` after an already-consumed hour `hh`; anything
may follow the meridiem (the source regex is unanchored). -/
def matchTail (hh : Nat) : List Char → Option (Nat × Nat × Bool)
  | ':' :: m1 :: m2 :: rest =>
    if m1.isDigit ∧ m2.isDigit then
      match rest with
      | 'a' :: 'm' :: _ => some (hh, 10 * digitVal m1 + digitVal m2, false)
      | 'p' :: 'm' :: _ => some (hh, 10 * digitVal m1 + digitVal m2, true)
      | _ => none
    else none
  | _ => none

/-- Try to match `\d{1,2}:\d{2}(am|pm)` at the current position, preferring a
two-digit hour and backtracking to one digit, like the source regex. -/
def matchAt : List Char → Option (Nat × Nat × Bool)
  | c1 :: c2 :: rest =>
    if c1.isDigit then
      if c2.isDigit then
        match matchTail (10 * digitVal c1 + digitVal c2) rest with
        | some r => some r
        | none => matchTail (digitVal c1) (c2 :: rest)
      else matchTail (digitVal c1) (c2 :: rest)
    else none
  | _ => none

/-- First match of `(\d{1,2}):(\d{2})(am|pm)` anywhere in the string,
scanning start positions left to right. -/
def findTimeMatch : List Char → Option (Nat × Nat × Bool)
  | [] => none
  | c :: rest =>
    match matchAt (c :: rest) with
    | some r => some r
    | none => findTimeMatch rest

/-- `timeToMinutes`: parse a loose time-of-day string to minutes after
midnight; unparseable input yields the sentinel `0`. -/
def timeToMinutes (t : String) : Nat :=
  if t = "" then 0
  else
    let t2 := normalizeTimeString t
    match findTimeMatch t2.toList with
    | none => 0
    | some (h, m, isPm) =>
      let h2 := if isPm ∧ h ≠ 12 then h + 12 else h
      let h3 := if ¬isPm ∧ h2 = 12 then 0 else h2
      h3 * 60 + m

/-! ## Event layout engine (script.js: `calculateEventColumns`) -/

/-- One entry of the `activeEvents` working set of the first pass. -/
structure EvInfo where
  startMins : Nat
  endMins : Nat
  column : Nat
deriving DecidableEq, Repr

/-- A layout position `{column, totalColumns}`. -/
structure Pos where
  column : Nat
  totalColumns : Nat
deriving DecidableEq, Repr

/-- Position of index `i`, with the irrelevant default `{0,1}` out of bounds. -/
def posAt (ps : List Pos) (i : Nat) : Pos := ps.getD i ⟨0, 1⟩

/-- Event (startMins, endMins) at index `i`. -/
def evAt (evs : List (Nat × Nat)) (i : Nat) : Nat × Nat := evs.getD i (0, 0)

/-- The source's `while (usedColumns.has(column)) column++`, with enough fuel
to terminate: the lowest column number not in `used`. -/
def firstFreeAux (used : List Nat) : Nat → Nat → Nat
  | 0, c => c
  | fuel + 1, c => if c ∈ used then firstFreeAux used fuel (c + 1) else c

/-- Lowest column number not used by any still-active event. -/
def firstFree (used : List Nat) : Nat := firstFreeAux used (used.length + 1) 0

/-- An event lies entirely outside the visible window `[startHour, endHour]`
(`endMins <= startHour*60 || startMins >= endHour*60`). -/
def outsideWindow (sh eh : Nat) (e : Nat × Nat) : Prop :=
  e.2 ≤ sh * 60 ∨ e.1 ≥ eh * 60

instance (sh eh : Nat) (e : Nat × Nat) : Decidable (outsideWindow sh eh e) := by
  unfold outsideWindow; infer_instance

/-- Two events overlap in time
(`startMins < otherEnd && endMins > otherStart`). -/
def overlapsEv (a b : Nat × Nat) : Prop := a.1 < b.2 ∧ a.2 > b.1

instance (a b : Nat × Nat) : Decidable (overlapsEv a b) := by
  unfold overlapsEv; infer_instance

/-- First pass of `calculateEventColumns`: walk the events in list order,
give `{0,1}` to events outside the window, and give every other event the
lowest column not used by a still-active event, maintaining the active set. -/
def pass1Go (sh eh : Nat) : List (Nat × Nat) → List EvInfo → List Pos
  | [], _ => []
  | e :: rest, act =>
    if outsideWindow sh eh e then
      ⟨0, 1⟩ :: pass1Go sh eh rest act
    else
      let stillActive := act.filter (fun a => e.1 < a.endMins)
      let column := firstFree (stillActive.map EvInfo.column)
      ⟨column, 1⟩ :: pass1Go sh eh rest (stillActive ++ [⟨e.1, e.2, column⟩])

/-- Second pass: for every event (window test absent in the source), the
maximum column among itself and every event it overlaps in time. -/
def maxOverlapCol (evs : List (Nat × Nat)) (ps : List Pos) (i : Nat) : Nat :=
  (List.range evs.length).foldl
    (fun acc j =>
      if j = i then acc
      else if overlapsEv (evAt evs i) (evAt evs j) then max acc (posAt ps j).column
      else acc)
    (posAt ps i).column

/-- Second pass: set every event's `totalColumns` to one more than the
maximum column among the events it overlaps. -/
def pass2 (evs : List (Nat × Nat)) (ps : List Pos) : List Pos :=
  (List.range evs.length).map (fun i =>
    { posAt ps i with totalColumns := maxOverlapCol evs ps i + 1 })

/-- One pair-update of the third pass: if events `i` and `j` overlap, set
both their `totalColumns` to the larger of the two current values. -/
def pass3Step (evs : List (Nat × Nat)) (i j : Nat) (ps : List Pos) : List Pos :=
  if i = j then ps
  else if overlapsEv (evAt evs i) (evAt evs j) then
    let pi := posAt ps i
    let pj := posAt ps j
    let m := max pi.totalColumns pj.totalColumns
    (ps.set i { pi with totalColumns := m }).set j { pj with totalColumns := m }
  else ps

/-- Third pass of the source: a single in-place sweep over all ordered pairs
(`items.forEach` nested in `items.forEach`), not an iteration to a fixed
point. -/
def pass3 (evs : List (Nat × Nat)) (ps : List Pos) : List Pos :=
  (List.range evs.length).foldl
    (fun acc i => (List.range evs.length).foldl (fun acc2 j => pass3Step evs i j acc2) acc)
    ps

/-- `calculateEventColumns` on minute intervals: the three passes. -/
def calcColumns (evs : List (Nat × Nat)) (sh eh : Nat) : List Pos :=
  pass3 evs (pass2 evs (pass1Go sh eh evs []))

/-- A day's event record as parsed by `parseJsonSchedule`. -/
structure DataItem where
  gym : String
  className : String
  category : String
  studio : String
  instructor : String
  start : String
  endTime : String
  cancelled : Bool
  requiresSignup : Bool
deriving DecidableEq, Repr

/-- `calculateEventColumns(items, startHour, endHour)`: the source converts
each item's time strings with `timeToMinutes` and runs the three passes. -/
def calculateEventColumns (items : List DataItem) (startHour endHour : Nat) : List Pos :=
  calcColumns (items.map (fun it => (timeToMinutes it.start, timeToMinutes it.endTime)))
    startHour endHour

/-! ## Geolocation and distance service (the `GeoService` module) -/

/-- A latitude/longitude pair, with exact rational coordinates. -/
structure Coord where
  lat : ℚ
  lng : ℚ
deriving DecidableEq, Repr

/-- A fixed recreation-center entry of `REC_CENTERS`. -/
structure RecCenter where
  name : String
  lat : ℚ
  lng : ℚ
  address : String
deriving DecidableEq, Repr

/-- The 27 hard-coded recreation centers of `GeoService`. -/
def REC_CENTERS : List RecCenter :=
  [⟨"Ashland", 397433/10000, -1049686/10000, "1600 E 19th Ave, Denver, CO 80218"⟩,
   ⟨"Athmar", 396958/10000, -1050206/10000, "1200 S Hazel Ct, Denver, CO 80219"⟩,
   ⟨"Barnum", 397261/10000, -1050297/10000, "360 Hooker St, Denver, CO 80219"⟩,
   ⟨"Carla Madison", 397400/10000, -1049528/10000, "2401 E Colfax Ave, Denver, CO 80206"⟩,
   ⟨"Central Park", 397583/10000, -1048686/10000, "9651 E Martin Luther King Jr Blvd, Denver, CO 80238"⟩,
   ⟨"Cook Park", 396506/10000, -1049336/10000, "7100 S Cherry Creek Dr, Denver, CO 80224"⟩,
   ⟨"Dunham", 397486/10000, -1050294/10000, "1355 Osceola St, Denver, CO 80204"⟩,
   ⟨"Glenarm", 397528/10000, -1049847/10000, "2800 Glenarm Pl, Denver, CO 80205"⟩,
   ⟨"Green Valley Ranch", 398347/10000, -1047697/10000, "4890 Argonne St, Denver, CO 80249"⟩,
   ⟨"Harvey Park", 396761/10000, -1050503/10000, "2120 S Tennyson St, Denver, CO 80219"⟩,
   ⟨"Hiawatha Davis", 397597/10000, -1049281/10000, "3334 Holly St, Denver, CO 80207"⟩,
   ⟨"Highland", 397667/10000, -1050167/10000, "2880 Osceola St, Denver, CO 80212"⟩,
   ⟨"La Alma", 397333/10000, -1050047/10000, "1325 W 11th Ave, Denver, CO 80204"⟩,
   ⟨"La Familia", 397119/10000, -1049869/10000, "65 S Elati St, Denver, CO 80223"⟩,
   ⟨"Martin Luther King Jr", 397597/10000, -1049119/10000, "3880 Newport St, Denver, CO 80207"⟩,
   ⟨"Montbello", 397833/10000, -1048333/10000, "15555 E 53rd Ave, Denver, CO 80239"⟩,
   ⟨"Montclair", 397167/10000, -1049167/10000, "729 Ulster Way, Denver, CO 80220"⟩,
   ⟨"Paco Sanchez", 397394/10000, -1050456/10000, "4701 W 10th Ave, Denver, CO 80204"⟩,
   ⟨"Platt Park", 396833/10000, -1049833/10000, "1500 S Grant St, Denver, CO 80210"⟩,
   ⟨"Rude", 397314/10000, -1050078/10000, "2855 W Holden Pl, Denver, CO 80204"⟩,
   ⟨"Scheitler", 397778/10000, -1050461/10000, "5031 W 46th Ave, Denver, CO 80212"⟩,
   ⟨"St. Charles", 397611/10000, -1049542/10000, "3777 Lafayette St, Denver, CO 80205"⟩,
   ⟨"Stapleton", 397667/10000, -1048833/10000, "3815 N Magnolia St, Denver, CO 80207"⟩,
   ⟨"Twentieth Street", 397475/10000, -1049867/10000, "1011 20th St, Denver, CO 80205"⟩,
   ⟨"Virginia Village", 396833/10000, -1049167/10000, "2250 S Dahlia St, Denver, CO 80222"⟩,
   ⟨"Washington Park", 396972/10000, -1049722/10000, "701 S Franklin St, Denver, CO 80209"⟩,
   ⟨"Woodbury", 396850/10000, -1049078/10000, "3101 S Grape St, Denver, CO 80222"⟩]

/-- A per-center distance record; optional fields model fields that are
absent (or `null`) on some of the data shapes (static table, estimate path,
routing-API path). -/
structure CenterRec where
  name : String
  address : String
  lat : ℚ
  lng : ℚ
  straight_line_miles : Option ℚ
  driving_miles : Option ℚ
  driving_minutes : Option ℤ
  driving_time : String
  driving_estimated : Bool
  biking_miles : Option ℚ
  biking_minutes : Option ℤ
  biking_time : String
  biking_estimated : Bool
  walking_miles : Option ℚ
  walking_minutes : Option ℤ
  walking_time : String
  walking_estimated : Bool
deriving DecidableEq, Repr

/-- A distances payload: the shape of the GeoCache entry, of the result of
`calculateAllDistances`, and of the static distance table (whose JSON has no
`origin` field — the origin is known out of band). -/
structure DistancesData where
  origin : Option Coord
  timestamp : ℕ
  centers : List CenterRec
  estimated : Bool
deriving DecidableEq, Repr

/-- The persisted client state (`localStorage`): the GeoCache entry and the
routing-API key, each under its own key. -/
structure Store where
  geoCache : Option DistancesData
  orsApiKey : Option String
deriving DecidableEq, Repr

/-- `getCachedData`. -/
def getCachedData (st : Store) : Option DistancesData := st.geoCache

/-- `setCachedData`. -/
def setCachedData (st : Store) (d : DistancesData) : Store := { st with geoCache := some d }

/-- `clearCache`. -/
def clearCache (st : Store) : Store := { st with geoCache := none }

/-- `Math.round` for the non-negative quantities involved: round half up. -/
def jsRound (q : ℚ) : ℤ := Int.floor (q + 1/2)

/-- `Number.prototype.toFixed(1)` followed by `parseFloat`, as exact decimal
rounding to one fractional digit. -/
def toFixed1 (q : ℚ) : ℚ := (jsRound (q * 10) : ℚ) / 10

/-- `ROAD_FACTOR = 1.35`. -/
def ROAD_FACTOR : ℚ := 27/20

/-- `hasMovedSignificantly`: great-circle distance above
`LOCATION_THRESHOLD_MILES = 0.25`. -/
def hasMovedSignificantly (hav : ℚ → ℚ → ℚ → ℚ → ℚ)
    (currentLat currentLng cachedLat cachedLng : ℚ) : Bool :=
  hav currentLat currentLng cachedLat cachedLng > 1/4

/-- `calculateAllDistances`: straight-line estimates for every center —
haversine miles, road factor 1.35, speeds 18/10/3 mph — flagged
`estimated`. The source never calls the routing API here. -/
def calculateAllDistances (hav : ℚ → ℚ → ℚ → ℚ → ℚ) (userLat userLng : ℚ)
    (now : ℕ) : DistancesData :=
  let centers := REC_CENTERS.map (fun c =>
    let straightDist := toFixed1 (hav userLat userLng c.lat c.lng)
    let roadDist := toFixed1 (straightDist * ROAD_FACTOR)
    let dmins := jsRound (roadDist / 18 * 60)
    let bmins := jsRound (roadDist / 10 * 60)
    let wmins := jsRound (roadDist / 3 * 60)
    { name := c.name, address := c.address, lat := c.lat, lng := c.lng,
      straight_line_miles := some straightDist,
      driving_miles := some roadDist, driving_minutes := some dmins,
      driving_time := "~" ++ toString dmins ++ " mins", driving_estimated := true,
      biking_miles := some roadDist, biking_minutes := some bmins,
      biking_time := "~" ++ toString bmins ++ " mins", biking_estimated := true,
      walking_miles := some roadDist, walking_minutes := some wmins,
      walking_time := "~" ++ toString wmins ++ " mins", walking_estimated := true })
  { origin := some ⟨userLat, userLng⟩, timestamp := now, centers := centers,
    estimated := true }

/-- The value of `GeoService.getDistances` together with the store left
behind by its cache side effects. -/
structure GetDistancesResult where
  data : Option DistancesData
  source : String
  userLocation : Option Coord
deriving DecidableEq, Repr

/-- `getDistances(onProgress, forceRefresh)`: position failure falls back to
the cache; an unmoved cached origin (within 0.25 mile) is reused; otherwise
`calculateAllDistances` runs and its result overwrites the cache. `posRes`
is the outcome of `getCurrentPosition` (`none` = geolocation failed). -/
def getDistances (hav : ℚ → ℚ → ℚ → ℚ → ℚ) (posRes : Option Coord) (st : Store)
    (now : ℕ) (forceRefresh : Bool) : GetDistancesResult × Store :=
  match posRes with
  | none =>
    match getCachedData st with
    | some cached => ({ data := some cached, source := "cache", userLocation := none }, st)
    | none => ({ data := none, source := "none", userLocation := none }, st)
  | some loc =>
    let cached := getCachedData st
    let reuse : Option DistancesData :=
      if forceRefresh = false then
        match cached with
        | some c =>
          match c.origin with
          | some o =>
            if hasMovedSignificantly hav loc.lat loc.lng o.lat o.lng then none else some c
          | none => none
        | none => none
      else none
    match reuse with
    | some c => ({ data := some c, source := "cache", userLocation := some loc }, st)
    | none =>
      let newData := calculateAllDistances hav loc.lat loc.lng now
      ({ data := some newData, source := "calculated", userLocation := some loc },
        setCachedData st newData)

/-- The observable outcome of `checkLocationAndLoadDistances` /
`loadDynamicDistances`: the global `distancesData`, the persisted store, and
the `locationStatus` indicator. -/
structure CheckResult where
  distancesData : Option DistancesData
  store : Store
  locationStatus : String
deriving DecidableEq, Repr

/-- `loadDynamicDistances(forceRefresh)`: run `getDistances` and install its
result; `current` is the global `distancesData` kept on failure. -/
def loadDynamicDistances (hav : ℚ → ℚ → ℚ → ℚ → ℚ) (posRes : Option Coord)
    (st : Store) (now : ℕ) (forceRefresh : Bool) (current : Option DistancesData) :
    CheckResult :=
  let r := getDistances hav posRes st now forceRefresh
  match r.1.data with
  | some d =>
    { distancesData := some d, store := r.2,
      locationStatus := if r.1.source = "cache" then "cached" else "granted" }
  | none => { distancesData := current, store := r.2, locationStatus := "denied" }

/-- `checkLocationAndLoadDistances`: a failed position falls back to the
static table; a position within 0.1 mile of home uses the static table,
clears the GeoCache and returns early; otherwise dynamic distances load. -/
def checkLocationAndLoadDistances (hav : ℚ → ℚ → ℚ → ℚ → ℚ)
    (posRes : Option Coord) (home : Option Coord) (staticD : Option DistancesData)
    (st : Store) (now : ℕ) : CheckResult :=
  match posRes with
  | none => { distancesData := staticD, store := st, locationStatus := "denied" }
  | some p =>
    let homeHit : Bool :=
      match home, staticD with
      | some h, some _ => hav p.lat p.lng h.lat h.lng ≤ 1/10
      | _, _ => false
    if homeHit then
      { distancesData := staticD, store := clearCache st, locationStatus := "home" }
    else
      loadDynamicDistances hav (some p) st now false staticD

/-! ## Schedule filter pipeline (script.js: `applyFilters`,
`groupDataByGym`, `getSortedGymsByDistance`, `getDistanceInfo`) -/

/-- Does the text start with the pattern? (char-list level). -/
def startsWithChars : List Char → List Char → Bool
  | [], _ => true
  | _ :: _, [] => false
  | c :: cs, d :: ds => c = d && startsWithChars cs ds

/-- JavaScript `String.prototype.includes`: `pat` occurs somewhere in
`text`. -/
def hasSubstrChars (text pat : List Char) : Bool :=
  match text with
  | [] => pat.isEmpty
  | _ :: rest => startsWithChars pat text || hasSubstrChars rest pat

/-- `s.includes(q)`. -/
def strIncludes (s q : String) : Bool := hasSubstrChars s.toList q.toList

/-- `String.prototype.toLowerCase`, computed on the character list. -/
def strToLower (s : String) : String := String.mk (s.toList.map Char.toLower)

/-- `String.prototype.trim`, computed on the character list. -/
def strTrim (s : String) : String :=
  String.mk (((s.toList.dropWhile Char.isWhitespace).reverse.dropWhile
    Char.isWhitespace).reverse)

/-- `parseInt(s, 10)` for an all-digit string; `none` is the `NaN` of a
non-numeric value. -/
def strToNat? (s : String) : Option Nat :=
  if s.toList ≠ [] ∧ s.toList.all Char.isDigit then
    some (s.toList.foldl (fun n c => n * 10 + digitVal c) 0)
  else none

/-- JavaScript `String.prototype.replace` with a string pattern: remove the
first occurrence of `pat` only. -/
def removeFirstChars (pat : List Char) : List Char → List Char
  | [] => []
  | c :: rest =>
    if startsWithChars pat (c :: rest) then (c :: rest).drop pat.length
    else c :: removeFirstChars pat rest

/-- `c.name.replace(' Recreation Center', '')`. -/
def removeFirstStr (s pat : String) : String :=
  String.mk (removeFirstChars pat.toList s.toList)

/-- `getDistanceInfo(gymName)`: first center whose name (with
`" Recreation Center"` removed, lowercased) fuzzily matches the gym name by
substring containment in either direction. -/
def getDistanceInfo (dd : Option DistancesData) (gymName : String) : Option CenterRec :=
  match dd with
  | none => none
  | some d =>
    d.centers.find? (fun c =>
      let centerName := strToLower (removeFirstStr c.name " Recreation Center")
      let searchName := strToLower gymName
      strIncludes centerName searchName || strIncludes searchName centerName)

/-- Insert `x` after every already-placed element `y` with `le y x`; used by
the stable sort below. -/
def insertLe (le : α → α → Bool) (x : α) : List α → List α
  | [] => [x]
  | y :: ys => if le y x then y :: insertLe le x ys else x :: y :: ys

/-- Stable insertion sort (left fold), modelling JavaScript's stable
`Array.prototype.sort`: for a total transitive comparator every stable sort
produces this same list. -/
def sortByLe (le : α → α → Bool) (l : List α) : List α :=
  l.foldl (fun acc x => insertLe le x acc) []

/-- The `info.xxx_minutes || Infinity` idiom: `0`, `null` and a missing
field all collapse to the `Infinity` sentinel, modelled as `none`. -/
def orInfinity : Option ℤ → Option ℤ
  | some v => if v = 0 then none else some v
  | none => none

/-- The `sortValue` computed for one gym inside `getSortedGymsByDistance`
(`none` is the `Infinity` sentinel; unknown sort types keep the initial
`Infinity`). -/
def sortValueOf (dd : Option DistancesData) (sortType : String) (name : String) :
    Option ℤ :=
  match getDistanceInfo dd name with
  | some info =>
    if sortType = "driving" then orInfinity info.driving_minutes
    else if sortType = "biking" then orInfinity info.biking_minutes
    else if sortType = "walking" then orInfinity info.walking_minutes
    else none
  | none => none

/-- The comparator `(a, b) => a.sortValue - b.sortValue` on sort values with
`none` as `Infinity` (two `Infinity`s compare equal, as the NaN comparator
result is treated as 0). -/
def svLe (a b : Option ℤ) : Bool :=
  match a, b with
  | some x, some y => x ≤ y
  | some _, none => true
  | none, some _ => false
  | none, none => true

/-- `getSortedGymsByDistance(gymNames, sortType)`. -/
def getSortedGymsByDistance (gymNames : List String) (sortType : String)
    (dd : Option DistancesData) : List String :=
  match dd with
  | none => sortByLe (fun a b : String => decide (a ≤ b)) gymNames
  | some d =>
    if sortType = "name" then sortByLe (fun a b : String => decide (a ≤ b)) gymNames
    else
      let gwd := gymNames.map (fun name => (name, sortValueOf (some d) sortType name))
      (sortByLe (fun a b => svLe a.2 b.2) gwd).map Prod.fst

/-- The gym keys of `gymsMap` in insertion order (JavaScript object keys:
first occurrence per gym). -/
def firstOccurrenceGyms (data : List DataItem) : List String :=
  data.foldl (fun acc d => if d.gym ∈ acc then acc else acc ++ [d.gym]) []

/-- `limitValue === 'all' ? Infinity : parseInt(limitValue, 10)`; `none`
covers both `Infinity` and `NaN`, neither of which triggers truncation. -/
def parseLimit (limitValue : String) : Option ℕ :=
  if limitValue = "all" then none else strToNat? limitValue

/-- `groupDataByGym(data, skipLimit)`: group by gym, order the gym names by
the selected distance metric, truncate to the limit unless `skipLimit`, and
emit `{gym, items}` groups. -/
def groupDataByGym (data : List DataItem) (skipLimit : Bool)
    (sortType limitValue : String) (dd : Option DistancesData) :
    List (String × List DataItem) :=
  let gymNames0 := firstOccurrenceGyms data
  let limit := parseLimit limitValue
  let gymNames1 := getSortedGymsByDistance gymNames0 sortType dd
  let gymNames2 :=
    if skipLimit then gymNames1
    else match limit with
      | some l => if l < gymNames1.length then gymNames1.take l else gymNames1
      | none => gymNames1
  gymNames2.map (fun g => (g, data.filter (fun d => d.gym = g)))

/-- `applyFilters`: hide cancelled, restrict to manually selected gyms and
classes, keyword search over gym/class/category, then group; the limit is
skipped exactly when gyms were manually selected. -/
def applyFilters (allData : List DataItem) (searchInput : String)
    (hideCancelled : Bool) (selectedGyms selectedClasses : List String)
    (sortType limitValue : String) (dd : Option DistancesData) :
    List (String × List DataItem) :=
  let searchQuery := strToLower (strTrim searchInput)
  let f1 := if hideCancelled then allData.filter (fun d => !d.cancelled) else allData
  let f2 :=
    if 0 < selectedGyms.length then f1.filter (fun d => d.gym ∈ selectedGyms) else f1
  let f3 :=
    if 0 < selectedClasses.length then
      f2.filter (fun d => d.className ∈ selectedClasses)
    else f2
  let f4 :=
    if searchQuery ≠ "" then
      f3.filter (fun d =>
        strIncludes (strToLower d.gym) searchQuery ||
        strIncludes (strToLower d.className) searchQuery ||
        strIncludes (strToLower d.category) searchQuery)
    else f3
  groupDataByGym f4 (decide (0 < selectedGyms.length)) sortType limitValue dd

/-! ## Concrete instances used in the theorems and witnesses below -/

/-- A simple concrete stand-in for the great-circle function when a theorem
quantifying over `hav` is instantiated in a witness (squared Euclidean
distance, which is exactly computable on rationals). -/
def sqDist (lat1 lng1 lat2 lng2 : ℚ) : ℚ :=
  (lat1 - lat2) * (lat1 - lat2) + (lng1 - lng2) * (lng1 - lng2)

/-- Zero-padded two-digit minute string. -/
def minuteStr (m : Nat) : String := if m < 10 then "0" ++ toString m else toString m

/-- A well-formed `H:MMam`/`H:MMpm` clock string. -/
def clockStr (h m : Nat) (mer : String) : String := toString h ++ ":" ++ minuteStr m ++ mer

/-- An event record with the fields the layout engine reads. -/
def mkItem (g cn s e : String) : DataItem := ⟨g, cn, "", "", "", s, e, false, false⟩

/-- Failing input for the cluster-consistency claim: a chain
`[0,10) – [8,20) – [18,50)×2 – [25,50)×2` (already in ascending start
order). The peak simultaneous count is 4, yet the single third-pass sweep
leaves the first event at `totalColumns = 3`. -/
def clusterCexItems : List DataItem :=
  [mkItem "Ashland" "a" "12:00am" "12:10am",
   mkItem "Ashland" "b" "12:08am" "12:20am",
   mkItem "Ashland" "c" "12:18am" "12:50am",
   mkItem "Ashland" "d" "12:18am" "12:50am",
   mkItem "Ashland" "e" "12:25am" "12:50am",
   mkItem "Ashland" "f" "12:25am" "12:50am"]

/-- Counterexample input for the out-of-window claim: with window 5am–10am,
the first event `[1:40am, 5:00am)` is entirely outside, but it overlaps the
two later events in raw time, one of which sits in column 1. -/
def windowCexItems : List DataItem :=
  [mkItem "Ashland" "a" "1:40am" "5:00am",
   mkItem "Ashland" "b" "4:10am" "6:40am",
   mkItem "Ashland" "c" "4:10am" "6:40am"]

/-- Eight facilities with one event each, for the facility-limit scenario. -/
def scenarioData : List DataItem :=
  ["Ashland", "Athmar", "Barnum", "Carla Madison", "Central Park", "Cook Park",
   "Dunham", "Glenarm"].map (fun g => mkItem g "Lap Swim" "9:00am" "10:00am")

/-- A center record carrying only per-mode minutes (all other fields
blank). -/
def mkCenterMin (nm : String) (dmin bmin wmin : Option ℤ) : CenterRec :=
  ⟨nm, "", 0, 0, none, none, dmin, "", false, none, bmin, "", false, none, wmin, "", false⟩

/-- Distances data for the sorting-sentinel witness: center `az` has 0-minute
metrics, center `bee` has 5-minute metrics, and the gym `cee` matches no
center at all. -/
def zeroMinutesData : DistancesData :=
  ⟨none, 0,
   [mkCenterMin "az" (some 0) (some 0) (some 0),
    mkCenterMin "bee" (some 5) (some 5) (some 5)],
   false⟩

/-- A minimal static distance table (its JSON carries no origin field). -/
def emptyStaticData : DistancesData := ⟨none, 0, [], false⟩

/-- A dynamic GeoCache entry computed at an origin far from home. -/
def awayCacheData : DistancesData := ⟨some ⟨2, 2⟩, 0, [], true⟩

/-- A dynamic GeoCache entry whose recorded origin is `(0, 0)`. -/
def awayHomeCache : DistancesData := ⟨some ⟨0, 0⟩, 0, [], true⟩

/-! ## Distance-resolution claims -/

/-- Shared home-branch computation: a position within 0.1 mile of the
recorded home origin makes `checkLocationAndLoadDistances` return the
static table with status `home` and a cleared GeoCache. -/
lemma checkLocation_home_eq (hav : ℚ → ℚ → ℚ → ℚ → ℚ) (p h : Coord)
    (sd : DistancesData) (st : Store) (now : ℕ)
    (hnear : hav p.lat p.lng h.lat h.lng ≤ 1/10) :
    checkLocationAndLoadDistances hav (some p) (some h) (some sd) st now =
      { distancesData := some sd, store := clearCache st, locationStatus := "home" } := by
  simp [checkLocationAndLoadDistances, hnear]
  intro hlt
  rw [← one_div] at hlt
  exact absurd hlt (not_lt.mpr hnear)

/-- C4: whenever the static distance table is loaded and the resolved user
position is within 0.1 mile (by the great-circle function `hav`) of the
recorded home origin, `checkLocationAndLoadDistances` returns the static
table's records with status `home` — for every GeoCache state `st`, so in
particular even when a dynamic cache entry for a different origin exists —
and the GeoCache is cleared. -/
theorem static_table_precedence (hav : ℚ → ℚ → ℚ → ℚ → ℚ) (p h : Coord)
    (sd : DistancesData) (st : Store) (now : ℕ)
    (hnear : hav p.lat p.lng h.lat h.lng ≤ 1/10) :
    checkLocationAndLoadDistances hav (some p) (some h) (some sd) st now =
      { distancesData := some sd, store := clearCache st, locationStatus := "home" } :=
  checkLocation_home_eq hav p h sd st now hnear

/-- Witness for `static_table_precedence`: home and user both at the origin,
with a dynamic cache for a different origin present. -/
theorem static_table_precedence_witness :
    sqDist 0 0 0 0 ≤ 1/10 ∧
    checkLocationAndLoadDistances sqDist (some ⟨0, 0⟩) (some ⟨0, 0⟩)
        (some emptyStaticData) ⟨some awayCacheData, some "abc123"⟩ 7 =
      { distancesData := some emptyStaticData,
        store := clearCache ⟨some awayCacheData, some "abc123"⟩,
        locationStatus := "home" } :=
  ⟨by norm_num [sqDist],
   static_table_precedence sqDist ⟨0, 0⟩ ⟨0, 0⟩ emptyStaticData
     ⟨some awayCacheData, some "abc123"⟩ 7 (by norm_num [sqDist])⟩

/-- C5: with a cached entry whose origin is `o`, a fresh position `loc`, no
forced refresh and the static-origin path not in play, `getDistances`
returns the cached records unchanged (leaving the store untouched) when the
great-circle distance is at most 0.25 mile, and otherwise computes fresh
records via `calculateAllDistances` and overwrites the GeoCache with the
new origin and result. -/
theorem cache_movement_threshold (hav : ℚ → ℚ → ℚ → ℚ → ℚ) (loc o : Coord)
    (c : DistancesData) (st : Store) (now : ℕ)
    (hcache : st.geoCache = some c) (horig : c.origin = some o) :
    (hav loc.lat loc.lng o.lat o.lng ≤ 1/4 →
      getDistances hav (some loc) st now false =
        ({ data := some c, source := "cache", userLocation := some loc }, st)) ∧
    (hav loc.lat loc.lng o.lat o.lng > 1/4 →
      getDistances hav (some loc) st now false =
        ({ data := some (calculateAllDistances hav loc.lat loc.lng now),
           source := "calculated", userLocation := some loc },
         setCachedData st (calculateAllDistances hav loc.lat loc.lng now))) := by
  constructor
  · intro hle
    have h4 : ¬ ((4 : ℚ)⁻¹ < hav loc.lat loc.lng o.lat o.lng) := by
      rw [← one_div]; exact not_lt.mpr hle
    simp [getDistances, getCachedData, hcache, horig, hasMovedSignificantly, h4]
  · intro hgt
    have h4 : ((4 : ℚ)⁻¹ < hav loc.lat loc.lng o.lat o.lng) := by
      rw [← one_div]; exact hgt
    simp [getDistances, getCachedData, hcache, horig, hasMovedSignificantly, h4]

/-- Witness for `cache_movement_threshold`: both branches exercised, with the
cached origin at `(0,0)`, a near position at distance 1/10 and a far
position at distance 2. -/
theorem cache_movement_threshold_witness :
    (sqDist (1/10) 0 0 0 ≤ 1/4 ∧
      getDistances sqDist (some ⟨1/10, 0⟩) ⟨some awayHomeCache, none⟩ 3 false =
        ({ data := some awayHomeCache, source := "cache",
           userLocation := some ⟨1/10, 0⟩ }, ⟨some awayHomeCache, none⟩)) ∧
    (sqDist 1 1 0 0 > 1/4 ∧
      getDistances sqDist (some ⟨1, 1⟩) ⟨some awayHomeCache, none⟩ 3 false =
        ({ data := some (calculateAllDistances sqDist 1 1 3),
           source := "calculated", userLocation := some ⟨1, 1⟩ },
         setCachedData ⟨some awayHomeCache, none⟩ (calculateAllDistances sqDist 1 1 3))) :=
  ⟨⟨by norm_num [sqDist],
    (cache_movement_threshold sqDist ⟨1/10, 0⟩ ⟨0, 0⟩ awayHomeCache
        ⟨some awayHomeCache, none⟩ 3 rfl rfl).1 (by norm_num [sqDist])⟩,
   ⟨by norm_num [sqDist],
    (cache_movement_threshold sqDist ⟨1, 1⟩ ⟨0, 0⟩ awayHomeCache
        ⟨some awayHomeCache, none⟩ 3 rfl rfl).2 (by norm_num [sqDist])⟩⟩

/-- C9: when the resolver finds the user within 0.1 mile of the static
origin it does not merely bypass the dynamic cache — it deletes it
(`clearCache`), so the store afterwards holds no GeoCache entry, and any
later resolution at any position must recompute (`source = "calculated"`)
instead of reusing the destroyed entry. -/
theorem home_branch_clears_cache_forces_recompute (hav : ℚ → ℚ → ℚ → ℚ → ℚ)
    (p h : Coord) (sd : DistancesData) (st : Store) (now : ℕ)
    (hnear : hav p.lat p.lng h.lat h.lng ≤ 1/10) :
    (checkLocationAndLoadDistances hav (some p) (some h) (some sd) st now).store.geoCache
        = none ∧
    ∀ (hav2 : ℚ → ℚ → ℚ → ℚ → ℚ) (p2 : Coord) (now2 : ℕ),
      (getDistances hav2 (some p2)
          (checkLocationAndLoadDistances hav (some p) (some h) (some sd) st now).store
          now2 false).1.source = "calculated" := by
  have hres := checkLocation_home_eq hav p h sd st now hnear
  rw [hres]
  refine ⟨rfl, fun hav2 p2 now2 => ?_⟩
  simp [getDistances, getCachedData, clearCache]

/-- Witness for `home_branch_clears_cache_forces_recompute`: a dynamic cache
computed 2 miles away is destroyed on coming home, and a later resolve at a
position far from everything recomputes. -/
theorem home_branch_clears_cache_forces_recompute_witness :
    sqDist 0 0 0 0 ≤ 1/10 ∧
    (checkLocationAndLoadDistances sqDist (some ⟨0, 0⟩) (some ⟨0, 0⟩)
        (some emptyStaticData) ⟨some awayCacheData, none⟩ 7).store.geoCache = none ∧
    (getDistances sqDist (some ⟨5, 5⟩)
        (checkLocationAndLoadDistances sqDist (some ⟨0, 0⟩) (some ⟨0, 0⟩)
          (some emptyStaticData) ⟨some awayCacheData, none⟩ 7).store
        9 false).1.source = "calculated" := by
  have hmain := home_branch_clears_cache_forces_recompute sqDist ⟨0, 0⟩ ⟨0, 0⟩
    emptyStaticData ⟨some awayCacheData, none⟩ 7 (by norm_num [sqDist])
  exact ⟨by norm_num [sqDist], hmain.1, hmain.2 sqDist ⟨5, 5⟩ 9⟩

/-- C3 (failing input): with a routing-API key configured in the store and
no reusable cache, a fresh `getDistances` run never issues the batched
routing request — the `calculateDistancesORS` path is never invoked by
`getDistances` in the source — and instead returns the straight-line
estimates, flagged `estimated = true` at both the payload and per-center
level; the result is identical whatever key is configured (the key is never
read), contradicting the claim that a configured key yields
`estimated = false` records from the routing API. -/
theorem getDistances_ignores_configured_api_key :
    (getDistances sqDist (some ⟨3975/100, -10499/100⟩)
        ⟨none, some "abc123"⟩ 0 false).1.source = "calculated" ∧
    (getDistances sqDist (some ⟨3975/100, -10499/100⟩)
        ⟨none, some "abc123"⟩ 0 false).1.data =
      some (calculateAllDistances sqDist (3975/100) (-10499/100) 0) ∧
    (calculateAllDistances sqDist (3975/100) (-10499/100) 0).estimated = true ∧
    (∀ c ∈ (calculateAllDistances sqDist (3975/100) (-10499/100) 0).centers,
      c.driving_estimated = true ∧ c.biking_estimated = true ∧
      c.walking_estimated = true) ∧
    (getDistances sqDist (some ⟨3975/100, -10499/100⟩)
        ⟨none, some "abc123"⟩ 0 false).1 =
      (getDistances sqDist (some ⟨3975/100, -10499/100⟩) ⟨none, none⟩ 0 false).1 := by
  refine ⟨rfl, rfl, rfl, ?_, rfl⟩
  decide

/-! ## Time-normalization claim -/

/-- C8: `"6pm"`, `"6:00pm"` and `"6:00 PM"` all normalize to `18*60 = 1080`
minutes; and in general, for every hour `1 ≤ h ≤ 12` and minute `m < 60`,
the normalizer maps `H:MMpm` (and the bare `Hpm`) to the 24-hour value with
`12pm ↦ 12`, pm adding 12 otherwise, and `H:MMam`/`Ham` with `12am ↦ 0`,
returning `hour*60 + minute`. -/
theorem timeToMinutes_normalization :
    (timeToMinutes "6pm" = 18 * 60 ∧ timeToMinutes "6:00pm" = 18 * 60 ∧
      timeToMinutes "6:00 PM" = 18 * 60) ∧
    (∀ h < 13, 1 ≤ h → ∀ m < 60,
      timeToMinutes (clockStr h m "pm") = (if h = 12 then 12 else h + 12) * 60 + m ∧
      timeToMinutes (clockStr h m "am") = (if h = 12 then 0 else h) * 60 + m ∧
      timeToMinutes (toString h ++ "pm") = (if h = 12 then 12 else h + 12) * 60 ∧
      timeToMinutes (toString h ++ "am") = (if h = 12 then 0 else h) * 60) := by
  constructor
  · decide
  · decide

/-- Witness for `timeToMinutes_normalization`: instantiated at 7:45pm. -/
theorem timeToMinutes_normalization_witness :
    1 ≤ 7 ∧
    timeToMinutes (clockStr 7 45 "pm") = (if 7 = 12 then 12 else 7 + 12) * 60 + 45 :=
  ⟨by norm_num,
   (timeToMinutes_normalization.2 7 (by norm_num) (by norm_num) 45 (by norm_num)).1⟩

/-! ## Layout counterexample evaluations -/

/-- C1 (failing input): on `clusterCexItems` — six events forming one
overlap-connected cluster with peak simultaneous count 4 — the layout leaves
event 0 at `totalColumns = 3` while event 1, which directly overlaps it,
ends at `totalColumns = 4`: the third pass is a single sweep, not an
iteration to a fixed point, so the cluster does not share one
`totalColumns` value equal to the peak count. -/
theorem layout_cluster_inconsistency_at_failing_input :
    (posAt (calculateEventColumns clusterCexItems 0 24) 0).totalColumns = 3 ∧
    (posAt (calculateEventColumns clusterCexItems 0 24) 1).totalColumns = 4 ∧
    overlapsEv (timeToMinutes "12:00am", timeToMinutes "12:10am")
      (timeToMinutes "12:08am", timeToMinutes "12:20am") := by
  refine ⟨?_, ?_, ?_⟩ <;> decide

/-- C6 (counterexample): the first event of `windowCexItems` lies entirely
outside the 5am–10am window, yet its layout position is `{0, 2}` rather
than `{0, 1}`: the second pass recomputed its `totalColumns` from the
events it overlaps in raw time. -/
theorem outside_window_position_changed_counterexample :
    outsideWindow 5 10 (timeToMinutes "1:40am", timeToMinutes "5:00am") ∧
    posAt (calculateEventColumns windowCexItems 5 10) 0 ≠ (⟨0, 1⟩ : Pos) := by
  refine ⟨?_, ?_⟩ <;> decide

/-! ## Layout-engine lemmas -/

/-- Among `0 .. used.length` some number is free. -/
lemma exists_not_mem_of_length (used : List Nat) :
    ∃ d, d ∉ used ∧ d < used.length + 1 := by
  by_contra h
  have hsub : (List.range (used.length + 1)) ⊆ used := by
    intro d hd
    by_contra hnot
    exact h ⟨d, hnot, List.mem_range.1 hd⟩
  have hle := (List.subperm_of_subset (List.nodup_range _) hsub).length_le
  simp only [List.length_range] at hle
  omega

/-- The column-search loop lands outside `used` whenever some free number
lies within fuel reach. -/
lemma firstFreeAux_not_mem :
    ∀ (fuel c : Nat) (used : List Nat),
      (∃ d, d ∉ used ∧ c ≤ d ∧ d < c + fuel) → firstFreeAux used fuel c ∉ used := by
  intro fuel
  induction fuel with
  | zero =>
    rintro c used ⟨d, _, h1, h2⟩
    omega
  | succ f ih =>
    rintro c used ⟨d, hd, h1, h2⟩
    rw [firstFreeAux]
    by_cases hc : c ∈ used
    · rw [if_pos hc]
      apply ih
      have hne : d ≠ c := fun hEq => hd (hEq ▸ hc)
      exact ⟨d, hd, by omega, by omega⟩
    · rw [if_neg hc]
      exact hc

/-- `firstFree used` is not an element of `used`. -/
lemma firstFree_not_mem (used : List Nat) : firstFree used ∉ used := by
  obtain ⟨d, hd, hlt⟩ := exists_not_mem_of_length used
  exact firstFreeAux_not_mem _ 0 used ⟨d, hd, Nat.zero_le d, by omega⟩

/-- The first pass emits one position per event. -/
lemma pass1Go_length (sh eh : Nat) :
    ∀ (evs : List (Nat × Nat)) (act : List EvInfo),
      (pass1Go sh eh evs act).length = evs.length := by
  intro evs
  induction evs with
  | nil => intro act; rfl
  | cons e rest ih =>
    intro act
    rw [pass1Go]
    by_cases h : outsideWindow sh eh e
    · rw [if_pos h]; simp [ih]
    · rw [if_neg h]; simp [ih]

/-- An in-bounds `evAt` is a member of the list. -/
lemma evAt_mem {evs : List (Nat × Nat)} {k : Nat} (hk : k < evs.length) :
    evAt evs k ∈ evs := by
  unfold evAt
  rw [List.getD_eq_getElem?_getD, List.getElem?_eq_getElem hk, Option.getD_some]
  exact List.getElem_mem hk

/-- Persistence and disjointness: every active entry whose event is still
running at an in-window event's start time keeps a column different from
the one the pass assigns to that event. The starts of `evs` must be
nondecreasing (the caller sorts them). -/
lemma pass1Go_act_column_ne (sh eh : Nat) :
    ∀ (evs : List (Nat × Nat)) (act : List EvInfo),
      evs.Pairwise (fun a b => a.1 ≤ b.1) →
      ∀ j, j < evs.length →
        ¬ outsideWindow sh eh (evAt evs j) →
        ∀ a ∈ act, (evAt evs j).1 < a.endMins →
          (posAt (pass1Go sh eh evs act) j).column ≠ a.column := by
  intro evs
  induction evs with
  | nil =>
    intro act _ j hj
    exact absurd hj (by simp)
  | cons e rest ih =>
    intro act hsort j hj hw a ha hend
    rw [pass1Go]
    by_cases hout : outsideWindow sh eh e
    · rw [if_pos hout]
      cases j with
      | zero => exact absurd hout (by simpa [evAt] using hw)
      | succ k =>
        show (posAt (pass1Go sh eh rest act) k).column ≠ a.column
        exact ih act (List.Pairwise.of_cons hsort) k (by simpa using hj)
          (by simpa [evAt] using hw) a ha (by simpa [evAt] using hend)
    · rw [if_neg hout]
      cases j with
      | zero =>
        show (firstFree ((act.filter (fun x => e.1 < x.endMins)).map EvInfo.column))
            ≠ a.column
        intro hEq
        apply firstFree_not_mem ((act.filter (fun x => e.1 < x.endMins)).map EvInfo.column)
        rw [hEq]
        refine List.mem_map_of_mem EvInfo.column (List.mem_filter.2 ⟨ha, ?_⟩)
        simpa using (by simpa [evAt] using hend : e.1 < a.endMins)
      | succ k =>
        show (posAt (pass1Go sh eh rest
            (act.filter (fun x => e.1 < x.endMins) ++
              [⟨e.1, e.2, firstFree ((act.filter (fun x => e.1 < x.endMins)).map
                EvInfo.column)⟩]) ) k).column ≠ a.column
        have hkrest : k < rest.length := by simpa using hj
        have hstart : e.1 ≤ (evAt rest k).1 :=
          (List.pairwise_cons.1 hsort).1 _ (evAt_mem hkrest)
        have hend' : (evAt rest k).1 < a.endMins := by simpa [evAt] using hend
        refine ih _ (List.Pairwise.of_cons hsort) k hkrest
          (by simpa [evAt] using hw) a ?_ hend'
        refine List.mem_append_left _ (List.mem_filter.2 ⟨ha, ?_⟩)
        simpa using (by omega : e.1 < a.endMins)

/-- Core disjointness of the first pass: two in-window events that overlap
in time receive different columns (starts nondecreasing, `i < j`). -/
lemma pass1Go_cols_ne (sh eh : Nat) :
    ∀ (evs : List (Nat × Nat)) (act : List EvInfo),
      evs.Pairwise (fun a b => a.1 ≤ b.1) →
      ∀ i j, i < j → j < evs.length →
        ¬ outsideWindow sh eh (evAt evs i) →
        ¬ outsideWindow sh eh (evAt evs j) →
        overlapsEv (evAt evs i) (evAt evs j) →
        (posAt (pass1Go sh eh evs act) i).column ≠
          (posAt (pass1Go sh eh evs act) j).column := by
  intro evs
  induction evs with
  | nil =>
    intro act _ i j _ hj
    exact absurd hj (by simp)
  | cons e rest ih =>
    intro act hsort i j hij hj hwi hwj hov
    obtain ⟨k, rfl⟩ : ∃ k, j = k + 1 := ⟨j - 1, by omega⟩
    cases i with
    | zero =>
      rw [pass1Go, if_neg (by simpa [evAt] using hwi)]
      show (firstFree ((act.filter (fun x => e.1 < x.endMins)).map EvInfo.column))
          ≠ (posAt (pass1Go sh eh rest _) k).column
      have hres := pass1Go_act_column_ne sh eh rest
        (act.filter (fun x => e.1 < x.endMins) ++
          [⟨e.1, e.2, firstFree ((act.filter (fun x => e.1 < x.endMins)).map
            EvInfo.column)⟩])
        (List.Pairwise.of_cons hsort) k (by simpa using hj)
        (by simpa [evAt] using hwj)
        ⟨e.1, e.2, firstFree ((act.filter (fun x => e.1 < x.endMins)).map
          EvInfo.column)⟩
        (List.mem_append_right _ (List.mem_singleton.2 rfl))
        (by simpa [evAt] using hov.2)
      exact Ne.symm hres
    | succ i' =>
      have hik : i' < k := by omega
      rw [pass1Go]
      by_cases hout : outsideWindow sh eh e
      · rw [if_pos hout]
        show (posAt (pass1Go sh eh rest act) i').column ≠
          (posAt (pass1Go sh eh rest act) k).column
        exact ih act (List.Pairwise.of_cons hsort) i' k hik (by simpa using hj)
          (by simpa [evAt] using hwi) (by simpa [evAt] using hwj)
          (by simpa [evAt] using hov)
      · rw [if_neg hout]
        show (posAt (pass1Go sh eh rest _) i').column ≠
          (posAt (pass1Go sh eh rest _) k).column
        exact ih _ (List.Pairwise.of_cons hsort) i' k hik (by simpa using hj)
          (by simpa [evAt] using hwi) (by simpa [evAt] using hwj)
          (by simpa [evAt] using hov)

/-- Reading past the end of a list yields the default. -/
lemma getD_of_length_le {α : Type _} {l : List α} {i : Nat} (h : l.length ≤ i)
    (d : α) : l.getD i d = d := by
  rw [List.getD_eq_getElem?_getD, List.getElem?_eq_none h, Option.getD_none]

/-- The second pass keeps every column unchanged. -/
lemma posAt_pass2_column (evs : List (Nat × Nat)) (ps : List Pos)
    (hlen : ps.length = evs.length) (i : Nat) :
    (posAt (pass2 evs ps) i).column = (posAt ps i).column := by
  unfold pass2 posAt
  by_cases hi : i < evs.length
  · rw [List.getD_eq_getElem?_getD, List.getElem?_map, List.getElem?_range hi]
    rfl
  · rw [getD_of_length_le (by simpa using not_lt.1 hi),
      getD_of_length_le (by omega)]

/-- A third-pass pair update keeps every column unchanged. -/
lemma pass3Step_column (evs : List (Nat × Nat)) (i j : Nat) (ps : List Pos)
    (k : Nat) : (posAt (pass3Step evs i j ps) k).column = (posAt ps k).column := by
  by_cases hij : i = j
  · simp [pass3Step, hij]
  · by_cases hov : overlapsEv (evAt evs i) (evAt evs j)
    · simp only [pass3Step, if_neg hij, if_pos hov, posAt,
        List.getD_eq_getElem?_getD, List.getElem?_set, List.length_set]
      by_cases hjk : j = k
      · subst hjk
        rw [if_pos rfl]
        by_cases hlen : j < ps.length
        · rw [if_pos hlen]
          simp
        · rw [if_neg hlen, List.getElem?_eq_none (by omega)]
      · rw [if_neg hjk]
        by_cases hik : i = k
        · subst hik
          rw [if_pos rfl]
          by_cases hlen : i < ps.length
          · rw [if_pos hlen]
            simp
          · rw [if_neg hlen, List.getElem?_eq_none (by omega)]
        · rw [if_neg hik]
    · simp [pass3Step, hij, hov]

/-- A left fold preserves any invariant its steps preserve. -/
lemma foldl_preserves {α β : Type _} (P : α → Prop) (f : α → β → α)
    (hf : ∀ a b, P a → P (f a b)) :
    ∀ (l : List β) (a : α), P a → P (l.foldl f a) := by
  intro l
  induction l with
  | nil => intro a h; exact h
  | cons x xs ih => intro a h; exact ih _ (hf _ _ h)

/-- The whole third pass keeps every column unchanged. -/
lemma pass3_column (evs : List (Nat × Nat)) (ps : List Pos) (k : Nat) :
    (posAt (pass3 evs ps) k).column = (posAt ps k).column := by
  unfold pass3
  refine foldl_preserves (fun q => (posAt q k).column = (posAt ps k).column) _
    ?_ (List.range evs.length) ps rfl
  intro q i hq
  refine foldl_preserves (fun q2 => (posAt q2 k).column = (posAt ps k).column) _
    ?_ (List.range evs.length) q hq
  intro q2 j hq2
  rw [pass3Step_column, hq2]

/-- The final column of every event is the one assigned by the first pass. -/
lemma calcColumns_column (evs : List (Nat × Nat)) (sh eh k : Nat) :
    (posAt (calcColumns evs sh eh) k).column =
      (posAt (pass1Go sh eh evs []) k).column := by
  unfold calcColumns
  rw [pass3_column]
  exact posAt_pass2_column evs _ (pass1Go_length sh eh evs []) k

/-- Out-of-window events get position `{0,1}` in the first pass. -/
lemma pass1Go_outside (sh eh : Nat) :
    ∀ (evs : List (Nat × Nat)) (act : List EvInfo) (j : Nat),
      outsideWindow sh eh (evAt evs j) →
      posAt (pass1Go sh eh evs act) j = (⟨0, 1⟩ : Pos) := by
  intro evs
  induction evs with
  | nil => intro act j _; rfl
  | cons e rest ih =>
    intro act j hout
    rw [pass1Go]
    by_cases he : outsideWindow sh eh e
    · rw [if_pos he]
      cases j with
      | zero => rfl
      | succ k => exact ih act k (by simpa [evAt] using hout)
    · rw [if_neg he]
      cases j with
      | zero => exact absurd (by simpa [evAt] using hout) he
      | succ k => exact ih _ k (by simpa [evAt] using hout)

/-- Deleting an out-of-window event from the list splices its `{0,1}`
position out of the first pass's output and changes nothing else. -/
lemma pass1Go_insert_outside (sh eh : Nat) (e : Nat × Nat)
    (he : outsideWindow sh eh e) :
    ∀ (pre post : List (Nat × Nat)) (act : List EvInfo),
      pass1Go sh eh (pre ++ e :: post) act =
        (pass1Go sh eh (pre ++ post) act).take pre.length ++
          (⟨0, 1⟩ : Pos) :: (pass1Go sh eh (pre ++ post) act).drop pre.length := by
  intro pre
  induction pre with
  | nil =>
    intro post act
    simp only [List.nil_append, List.length_nil, List.take_zero, List.drop_zero,
      List.nil_append]
    rw [pass1Go, if_pos he]
  | cons x pre' ih =>
    intro post act
    simp only [List.cons_append, List.length_cons]
    rw [pass1Go, pass1Go]
    by_cases hx : outsideWindow sh eh x
    · rw [if_pos hx, if_pos hx, ih post act]
      simp [List.take_succ_cons, List.drop_succ_cons]
    · rw [if_neg hx, if_neg hx]
      simp only [ih, List.take_succ_cons, List.drop_succ_cons, List.cons_append]

/-! ## Layout claims -/

/-- C2: for every event list sorted by ascending start time (the caller
`renderCalendar` sorts before laying out) and every pair of distinct
rendered events — both inside the visible hour window — whose time
intervals overlap (`startA < endB` and `endA > startB`), the layout assigns
the two events different column numbers. -/
theorem layout_overlapping_columns_disjoint
    (evs : List (Nat × Nat)) (sh eh : Nat)
    (hsort : evs.Pairwise (fun a b => a.1 ≤ b.1))
    (i j : Nat) (hi : i < evs.length) (hj : j < evs.length) (hij : i ≠ j)
    (hwi : ¬ outsideWindow sh eh (evAt evs i))
    (hwj : ¬ outsideWindow sh eh (evAt evs j))
    (hov : overlapsEv (evAt evs i) (evAt evs j)) :
    (posAt (calcColumns evs sh eh) i).column ≠
      (posAt (calcColumns evs sh eh) j).column := by
  rw [calcColumns_column, calcColumns_column]
  rcases Nat.lt_or_ge i j with hlt | hge
  · exact pass1Go_cols_ne sh eh evs [] hsort i j hlt hj hwi hwj hov
  · have hlt : j < i := by omega
    exact (pass1Go_cols_ne sh eh evs [] hsort j i hlt hi hwj hwi ⟨hov.2, hov.1⟩).symm

/-- Witness for `layout_overlapping_columns_disjoint`: the spec's 9:00–10:00
and 9:30–10:30 events, window 5am–10pm. -/
theorem layout_overlapping_columns_disjoint_witness :
    ([(540, 600), (570, 630)] : List (Nat × Nat)).Pairwise (fun a b => a.1 ≤ b.1) ∧
    (posAt (calcColumns [(540, 600), (570, 630)] 5 22) 0).column ≠
      (posAt (calcColumns [(540, 600), (570, 630)] 5 22) 1).column :=
  ⟨by simp, layout_overlapping_columns_disjoint [(540, 600), (570, 630)] 5 22
    (by simp) 0 1 (by decide) (by decide) (by decide) (by decide) (by decide) (by decide)⟩

/-- C6 (amended): every event whose interval lies entirely outside the
visible window is assigned column 0 in the final layout, and removing such
an event changes no other event's column (it never joins the active set of
the assignment pass); it is, however, not excluded from the
`totalColumns` passes — see the counterexample theorem for its recomputed
`totalColumns`. -/
theorem outside_window_column_zero :
    (∀ (evs : List (Nat × Nat)) (sh eh i : Nat),
        outsideWindow sh eh (evAt evs i) →
        (posAt (calcColumns evs sh eh) i).column = 0) ∧
    (∀ (sh eh : Nat) (e : Nat × Nat), outsideWindow sh eh e →
      ∀ (pre post : List (Nat × Nat)) (k : Nat),
        (k < pre.length →
          (posAt (calcColumns (pre ++ e :: post) sh eh) k).column =
            (posAt (calcColumns (pre ++ post) sh eh) k).column) ∧
        (posAt (calcColumns (pre ++ e :: post) sh eh) (pre.length + 1 + k)).column =
          (posAt (calcColumns (pre ++ post) sh eh) (pre.length + k)).column) := by
  constructor
  · intro evs sh eh i hout
    rw [calcColumns_column, pass1Go_outside sh eh evs [] i hout]
  · intro sh eh e he pre post k
    have hsplice := pass1Go_insert_outside sh eh e he pre post []
    have hlen : pre.length ≤ (pass1Go sh eh (pre ++ post) []).length := by
      rw [pass1Go_length]; simp
    have htake : (List.take pre.length (pass1Go sh eh (pre ++ post) [])).length
        = pre.length := by
      simp [List.length_take, Nat.min_eq_left hlen]
    constructor
    · intro hk
      rw [calcColumns_column, calcColumns_column, hsplice]
      unfold posAt
      simp only [List.getD_eq_getElem?_getD]
      rw [List.getElem?_append_left (by omega), List.getElem?_take_of_lt hk]
    · rw [calcColumns_column, calcColumns_column, hsplice]
      unfold posAt
      simp only [List.getD_eq_getElem?_getD]
      rw [List.getElem?_append_right (by omega), htake]
      have hidx : pre.length + 1 + k - pre.length = k + 1 := by omega
      rw [hidx, List.getElem?_cons_succ, List.getElem?_drop]

/-- Witness for `outside_window_column_zero`: the event `[100, 300)` is
outside the 5am–10am window; its final column is 0 and inserting it between
the two `[250, 400)` events changes neither of their columns. -/
theorem outside_window_column_zero_witness :
    outsideWindow 5 10 (evAt [(100, 300), (250, 400), (250, 400)] 0) ∧
    (posAt (calcColumns [(100, 300), (250, 400), (250, 400)] 5 10) 0).column = 0 ∧
    ((0 < ([((250 : Nat), (400 : Nat))] : List (Nat × Nat)).length →
        (posAt (calcColumns ([(250, 400)] ++ (100, 300) :: [(250, 400)]) 5 10) 0).column =
          (posAt (calcColumns ([(250, 400)] ++ [(250, 400)]) 5 10) 0).column) ∧
      (posAt (calcColumns ([(250, 400)] ++ (100, 300) :: [(250, 400)]) 5 10)
          (([((250 : Nat), (400 : Nat))] : List (Nat × Nat)).length + 1 + 0)).column =
        (posAt (calcColumns ([(250, 400)] ++ [(250, 400)]) 5 10)
          (([((250 : Nat), (400 : Nat))] : List (Nat × Nat)).length + 0)).column) :=
  ⟨by decide,
   outside_window_column_zero.1 [(100, 300), (250, 400), (250, 400)] 5 10 0 (by decide),
   outside_window_column_zero.2 5 10 (100, 300) (by decide) [(250, 400)] [(250, 400)] 0⟩

/-! ## Stable-sort lemmas -/

/-- Membership in an insertion. -/
lemma mem_insertLe {le : α → α → Bool} {x y : α} :
    ∀ {l : List α}, y ∈ insertLe le x l ↔ y = x ∨ y ∈ l := by
  intro l
  induction l with
  | nil => simp [insertLe]
  | cons z zs ih =>
    rw [insertLe]
    by_cases h : le z x = true
    · rw [if_pos h]
      simp only [List.mem_cons, ih]
      tauto
    · rw [if_neg h]
      simp only [List.mem_cons]

/-- Insertion grows the length by one. -/
lemma length_insertLe (le : α → α → Bool) (x : α) :
    ∀ (l : List α), (insertLe le x l).length = l.length + 1 := by
  intro l
  induction l with
  | nil => rfl
  | cons z zs ih =>
    rw [insertLe]
    by_cases h : le z x = true
    · rw [if_pos h]; simp [ih]
    · rw [if_neg h]; simp

/-- Insertion preserves sortedness for a total transitive comparator. -/
lemma pairwise_insertLe {le : α → α → Bool}
    (htot : ∀ a b, le a b = true ∨ le b a = true)
    (htrans : ∀ a b c, le a b = true → le b c = true → le a c = true)
    {x : α} : ∀ {l : List α}, l.Pairwise (fun a b => le a b = true) →
      (insertLe le x l).Pairwise (fun a b => le a b = true) := by
  intro l
  induction l with
  | nil =>
    intro _
    simp [insertLe]
  | cons z zs ih =>
    intro h
    rcases List.pairwise_cons.1 h with ⟨hz, hzs⟩
    rw [insertLe]
    by_cases hc : le z x = true
    · rw [if_pos hc]
      refine List.pairwise_cons.2 ⟨?_, ih hzs⟩
      intro b hb
      rcases mem_insertLe.1 hb with rfl | hbzs
      · exact hc
      · exact hz b hbzs
    · rw [if_neg hc]
      have hxz : le x z = true := (htot x z).resolve_right (fun h1 => hc h1)
      refine List.pairwise_cons.2 ⟨?_, h⟩
      intro b hb
      rcases List.mem_cons.1 hb with rfl | hbzs
      · exact hxz
      · exact htrans x z b hxz (hz b hbzs)

/-- Membership is preserved by the stable sort. -/
lemma mem_sortByLe {le : α → α → Bool} {y : α} {l : List α} :
    y ∈ sortByLe le l ↔ y ∈ l := by
  suffices h : ∀ (l : List α) (acc : List α),
      (y ∈ l.foldl (fun a x => insertLe le x a) acc ↔ y ∈ acc ∨ y ∈ l) by
    unfold sortByLe
    rw [h l []]
    simp
  intro l
  induction l with
  | nil => intro acc; simp
  | cons z zs ih =>
    intro acc
    rw [List.foldl_cons, ih, mem_insertLe]
    simp only [List.mem_cons]
    tauto

/-- The stable sort preserves length. -/
lemma length_sortByLe (le : α → α → Bool) (l : List α) :
    (sortByLe le l).length = l.length := by
  suffices h : ∀ (l : List α) (acc : List α),
      (l.foldl (fun a x => insertLe le x a) acc).length = acc.length + l.length by
    unfold sortByLe
    rw [h l []]
    simp
  intro l
  induction l with
  | nil => intro acc; simp
  | cons z zs ih =>
    intro acc
    rw [List.foldl_cons, ih, length_insertLe]
    simp only [List.length_cons]
    omega

/-- The stable sort sorts, for a total transitive comparator. -/
lemma pairwise_sortByLe {le : α → α → Bool}
    (htot : ∀ a b, le a b = true ∨ le b a = true)
    (htrans : ∀ a b c, le a b = true → le b c = true → le a c = true)
    (l : List α) : (sortByLe le l).Pairwise (fun a b => le a b = true) := by
  unfold sortByLe
  refine foldl_preserves (fun acc => acc.Pairwise (fun a b => le a b = true)) _
    ?_ l [] (List.Pairwise.nil)
  intro acc x hacc
  exact pairwise_insertLe htot htrans hacc

/-- The sort-value comparator is total. -/
lemma svLe_total (a b : Option ℤ) : svLe a b = true ∨ svLe b a = true := by
  rcases a with _ | x <;> rcases b with _ | y <;> simp [svLe] <;> omega

/-- The sort-value comparator is transitive. -/
lemma svLe_trans (a b c : Option ℤ) (h1 : svLe a b = true) (h2 : svLe b c = true) :
    svLe a c = true := by
  rcases a with _ | x <;> rcases b with _ | y <;> rcases c with _ | z <;>
    simp [svLe] at * <;> omega

/-- Indexing the name component of a sorted pair list. -/
lemma getD_map_fst {l : List (String × Option ℤ)} {i : Nat} (hi : i < l.length) :
    (l.map Prod.fst).getD i "" = (l[i]).1 := by
  rw [List.getD_eq_getElem?_getD, List.getElem?_map,
    List.getElem?_eq_getElem hi]
  rfl

/-- In a list sorted by the sort-value comparator, everything after a
sentinel (`none`) entry is a sentinel entry. -/
lemma sortedSentinel {L : List (String × Option ℤ)}
    (hpw : L.Pairwise (fun a b => svLe a.2 b.2 = true))
    {i j : Nat} (hij : i < j) (hi : i < L.length) (hj : j < L.length)
    (hnone : (L[i]).2 = none) : (L[j]).2 = none := by
  have hrel := List.pairwise_iff_getElem.1 hpw i j hi hj hij
  rw [hnone] at hrel
  rcases hcase : (L[j]).2 with _ | v
  · rfl
  · rw [hcase] at hrel
    simp [svLe] at hrel

/-- Any element of the sorted gym/value list carries its own recomputed sort
value. -/
lemma sorted_pairs_snd {d : DistancesData} {st : String} {names : List String}
    {p : String × Option ℤ}
    (hp : p ∈ sortByLe (fun a b => svLe a.2 b.2)
        (names.map (fun name => (name, sortValueOf (some d) st name)))) :
    p.2 = sortValueOf (some d) st p.1 := by
  rcases List.mem_map.1 (mem_sortByLe.1 hp) with ⟨n, _, rfl⟩
  rfl

/-! ## Facility-sorting claim -/

/-- C10: in distance-based facility sorting, a matched record whose
per-mode minutes are `0` gets the same `Infinity` sentinel as a `null` or
missing value (`orInfinity` collapses both to `none`, while any nonzero
value survives), and consequently, in the sorted output, every facility
from the sentinel class appears after every facility with a nonzero sort
value: once a sentinel-valued name occurs, every later name is
sentinel-valued too. -/
theorem zero_minutes_sorts_as_infinity :
    (orInfinity (some 0) = none ∧ orInfinity none = none ∧
      ∀ m : ℤ, m ≠ 0 → orInfinity (some m) = some m) ∧
    (∀ (names : List String) (d : DistancesData) (st : String), st ≠ "name" →
      ∀ i j : Nat, i < j → j < (getSortedGymsByDistance names st (some d)).length →
        sortValueOf (some d) st ((getSortedGymsByDistance names st (some d)).getD i "")
          = none →
        sortValueOf (some d) st ((getSortedGymsByDistance names st (some d)).getD j "")
          = none) := by
  refine ⟨⟨rfl, rfl, fun m hm => by simp [orInfinity, hm]⟩, ?_⟩
  intro names d st hst i j hij hjlen hnone
  simp only [getSortedGymsByDistance, if_neg hst] at hjlen hnone ⊢
  rw [List.length_map] at hjlen
  have hilen : i < (sortByLe (fun a b : String × Option ℤ => svLe a.2 b.2)
      (names.map (fun name => (name, sortValueOf (some d) st name)))).length :=
    Nat.lt_trans hij hjlen
  rw [getD_map_fst hilen] at hnone
  rw [getD_map_fst hjlen]
  have hpw := pairwise_sortByLe (fun a b : String × Option ℤ => svLe_total a.2 b.2)
    (fun a b c : String × Option ℤ => svLe_trans a.2 b.2 c.2)
    (names.map (fun name => (name, sortValueOf (some d) st name)))
  have hsnd_i := sorted_pairs_snd (List.getElem_mem hilen)
  have hsnd_j := sorted_pairs_snd (List.getElem_mem hjlen)
  rw [← hsnd_j]
  exact sortedSentinel hpw hij hilen hjlen (hsnd_i.trans hnone)

/-- Witness for `zero_minutes_sorts_as_infinity`: with centers `az`
(0 minutes) and `bee` (5 minutes) and the unmatched gym `cee`, the sorted
order is `[bee, az, cee]`, and positions 1 and 2 both carry the sentinel. -/
theorem zero_minutes_sorts_as_infinity_witness :
    (3 : ℤ) ≠ 0 ∧ orInfinity (some 3) = some 3 ∧
    ("driving" : String) ≠ "name" ∧
    sortValueOf (some zeroMinutesData) "driving"
      ((getSortedGymsByDistance ["az", "bee", "cee"] "driving"
        (some zeroMinutesData)).getD 2 "") = none :=
  ⟨by decide, (zero_minutes_sorts_as_infinity.1.2.2 3 (by decide)),
   by decide,
   zero_minutes_sorts_as_infinity.2 ["az", "bee", "cee"] zeroMinutesData "driving"
     (by decide) 1 2 (by decide) (by decide) (by decide)⟩

/-! ## Filter-pipeline claim -/

/-- With `skipLimit = false`, grouping truncates exactly to the limit, as a
`take` of the untruncated (`"all"`) grouping. -/
lemma groupDataByGym_limit (data : List DataItem) (st lv : String) (n : ℕ)
    (dd : Option DistancesData) (hn : parseLimit lv = some n) :
    groupDataByGym data false st lv dd =
      (if n < (groupDataByGym data false st "all" dd).length
       then (groupDataByGym data false st "all" dd).take n
       else groupDataByGym data false st "all" dd) := by
  have hall : parseLimit "all" = none := rfl
  simp only [groupDataByGym, hn, hall, Bool.false_eq_true, if_false, List.length_map]
  by_cases hlt : n < (getSortedGymsByDistance (firstOccurrenceGyms data) st dd).length
  · rw [if_pos hlt, if_pos hlt, List.map_take]
  · rw [if_neg hlt, if_neg hlt]

/-- C7: with a non-empty manual facility selection the facility-count limit
is not applied — in the spec's scenario (`selectedFacilities = ['Barnum']`,
`facilityLimit = 5`, 8 facilities with events) the output has exactly one
facility group, and in general the output does not depend on the limit
value at all; only with an empty selection is the ordered group list
truncated to the first `facilityLimit` groups. -/
theorem selected_facilities_bypass_limit :
    (applyFilters scenarioData "" false ["Barnum"] [] "biking" "5" none =
      [("Barnum", [mkItem "Barnum" "Lap Swim" "9:00am" "10:00am"])]) ∧
    (∀ (data : List DataItem) (s : String) (hc : Bool) (sg sc : List String)
        (st lv lv' : String) (dd : Option DistancesData), sg ≠ [] →
      applyFilters data s hc sg sc st lv dd = applyFilters data s hc sg sc st lv' dd) ∧
    (∀ (data : List DataItem) (s : String) (hc : Bool) (sc : List String)
        (st lv : String) (n : ℕ) (dd : Option DistancesData), parseLimit lv = some n →
      applyFilters data s hc [] sc st lv dd =
        (if n < (applyFilters data s hc [] sc st "all" dd).length
         then (applyFilters data s hc [] sc st "all" dd).take n
         else applyFilters data s hc [] sc st "all" dd)) := by
  refine ⟨by decide, ?_, ?_⟩
  · intro data s hc sg sc st lv lv' dd hsg
    have hlen : 0 < sg.length := by
      cases sg with
      | nil => exact absurd rfl hsg
      | cons a l => simp
    simp [applyFilters, groupDataByGym, hlen]
  · intro data s hc sc st lv n dd hn
    exact groupDataByGym_limit _ st lv n dd hn

/-- Witness for `selected_facilities_bypass_limit`: the limit-independence
part at a selection, and the truncation part on the 8-facility data with
limit 2. -/
theorem selected_facilities_bypass_limit_witness :
    (["Barnum"] : List String) ≠ [] ∧
    applyFilters scenarioData "" false ["Barnum"] [] "biking" "5" none =
      applyFilters scenarioData "" false ["Barnum"] [] "biking" "all" none ∧
    parseLimit "2" = some 2 ∧
    applyFilters scenarioData "" false [] [] "name" "2" none =
      (if 2 < (applyFilters scenarioData "" false [] [] "name" "all" none).length
       then (applyFilters scenarioData "" false [] [] "name" "all" none).take 2
       else applyFilters scenarioData "" false [] [] "name" "all" none) :=
  ⟨by decide,
   selected_facilities_bypass_limit.2.1 scenarioData "" false ["Barnum"] [] "biking"
     "5" "all" none (by decide),
   by decide,
   selected_facilities_bypass_limit.2.2 scenarioData "" false [] "name" "2" 2 none
     (by decide)⟩

end DenverRec
